import Mathlib

/-!
Verification of the OCC / conflict-resolution / offline-queue core of
msme-inventory-lite against its natural-language specification.

The definitions below are shallow embeddings of:
  * `updateProduct` and `createProduct` in
    `src/backend-node/src/controllers/productController.ts`,
  * the error constructors in the errors utility module (`ErrorTypes`),
  * the second controller variant of `updateProduct` (`src/unnamed/part_020`),
  * the offline edit queue (`backoffDelay`, `processQueue`, `syncItem` in
    `src/frontend-nextjs/src/lib/authContext.tsx`, offline-queue section),
  * `handleConflictResolution` in the ProductForm component
    (`src/unnamed/part_003`).

JavaScript numbers used by the code are modelled as `Int` (only equality,
ordering and `+ 1` occur); possibly-`undefined` request fields are `Option`.
-/

/-- Actor role, resolved from the `profiles` table (`role` is `'owner'` or
`'staff'`, default `'staff'`, per `schema/01-schema.sql`). -/
inductive Role where
  | owner
  | staff
deriving DecidableEq

/-- A stored product row: the mutable business fields plus the
optimistic-concurrency `version` column (`products` table,
`schema/01-schema.sql` lines 36-46). -/
structure Product where
  name : String
  sku : String
  category : String
  quantity : Int
  unit_price : Int
  version : Int
deriving DecidableEq

/-- The JSON body of a PUT request. Each field may be absent (`undefined` in
the TS code), hence `Option`. A property whose value is `undefined` is
dropped by JSON serialisation, so an absent field leaves the column
unchanged. -/
structure UpdateBody where
  name : Option String
  sku : Option String
  category : Option String
  quantity : Option Int
  unit_price : Option Int
  version : Option Int
deriving DecidableEq

/-- Outcome of one update request, carrying the `details` payload of the
corresponding `ErrorTypes` constructor: `NOT_FOUND {resource, id}`,
`PERMISSION_EDIT_PRICE {resource, id, field}`,
`CONFLICT {resource, id, expected_version, actual_version}`, or the updated
record on success. -/
inductive UpdateOutcome where
  | notFound (resource : String) (id : String)
  | permissionEditPrice (resource : String) (id : String) (changedField : String)
  | conflict (resource : String) (id : String) (expected : Option Int) (actual : Int)
  | success (r : Product)
deriving DecidableEq

/-- HTTP status attached to each outcome by `ErrorTypes` /
`sendErrorResponse` (404, 403, 409) and by the success path (200). -/
def httpStatus : UpdateOutcome → Nat
  | .notFound _ _ => 404
  | .permissionEditPrice _ _ _ => 403
  | .conflict _ _ _ _ => 409
  | .success _ => 200

/-- The `updateData` object built by `updateProduct`
(`productController.ts` lines 143-158) applied to the current row:
`name, sku, category, quantity` come from the body (an absent field is
dropped from the JSON patch, leaving the column unchanged);
`unit_price` is included verbatim for an owner and rewritten to the stored
value for staff (staff reaching this point either omitted the price or
submitted the stored value); `version` is the submitted version plus one —
the concurrency guard in `updateProduct` ensures the submitted version
equals `cur.version`, so it is written here as `cur.version + 1`. -/
def applyUpdate (role : Role) (body : UpdateBody) (cur : Product) : Product :=
  { name := body.name.getD cur.name
    sku := body.sku.getD cur.sku
    category := body.category.getD cur.category
    quantity := body.quantity.getD cur.quantity
    unit_price :=
      match role with
      | .owner => body.unit_price.getD cur.unit_price
      | .staff => cur.unit_price
    version := cur.version + 1 }

/-- Embedding of `updateProduct`
(`src/backend-node/src/controllers/productController.ts` lines 104-179).
`stored` is the row returned by the initial fetch (`none` when the fetch
fails, i.e. the record does not exist). Returns the response outcome
together with the stored row after the request: every error branch returns
before the supabase `update` call, so the row is unchanged there. -/
def updateProduct (role : Role) (id : String) (body : UpdateBody)
    (stored : Option Product) : UpdateOutcome × Option Product :=
  match stored with
  | none => (.notFound "product" id, none)
  | some cur =>
    -- Role-based constraint: staff cannot modify unit_price
    -- (`userRole === 'staff' && unit_price !== undefined && unit_price !== currentProduct.unit_price`)
    if role = Role.staff ∧ body.unit_price.isSome ∧ body.unit_price ≠ some cur.unit_price then
      (.permissionEditPrice "product" id "unit_price", some cur)
    -- Optimistic concurrency check (`currentProduct.version !== version`)
    else if body.version ≠ some cur.version then
      (.conflict "product" id body.version cur.version, some cur)
    else
      let r := applyUpdate role body cur
      (.success r, some r)

/-- The `updateData` object of the second controller variant
(`src/unnamed/part_020` lines 109-130); textually the same construction as
`applyUpdate`. -/
def applyUpdateAlt (role : Role) (body : UpdateBody) (cur : Product) : Product :=
  { name := body.name.getD cur.name
    sku := body.sku.getD cur.sku
    category := body.category.getD cur.category
    quantity := body.quantity.getD cur.quantity
    unit_price :=
      match role with
      | .owner => body.unit_price.getD cur.unit_price
      | .staff => cur.unit_price
    version := cur.version + 1 }

/-- Embedding of the `updateProduct` handler variant of
`src/unnamed/part_020` (lines 54-142), which inlines its error responses
instead of going through `ErrorTypes` but emits the same codes, statuses
and details. -/
def updateProductAlt (role : Role) (id : String) (body : UpdateBody)
    (stored : Option Product) : UpdateOutcome × Option Product :=
  match stored with
  | none => (.notFound "product" id, none)
  | some cur =>
    if role = Role.staff ∧ body.unit_price.isSome ∧ body.unit_price ≠ some cur.unit_price then
      (.permissionEditPrice "product" id "unit_price", some cur)
    else if body.version ≠ some cur.version then
      (.conflict "product" id body.version cur.version, some cur)
    else
      let r := applyUpdateAlt role body cur
      (.success r, some r)

/-- Embedding of `createProduct` (`productController.ts` lines 68-102): the
insert supplies `name, sku, category, quantity, unit_price` and omits
`version`, so the row gets the schema default `version integer NOT NULL
DEFAULT 1` (`schema/01-schema.sql` line 43). -/
def createProduct (name sku category : String) (quantity unit_price : Int) : Product :=
  { name := name
    sku := sku
    category := category
    quantity := quantity
    unit_price := unit_price
    version := 1 }

/-- Embedding of `backoffDelay` (`authContext.tsx` offline-queue section,
lines 264-268): `Math.min(max, base * Math.pow(2, Math.max(0, attempts - 1)))`
with `base = 750`, `max = 5000`. `Nat` subtraction truncates at zero exactly
like `Math.max(0, attempts - 1)`. -/
def backoffDelay (attempts : Nat) : Nat :=
  min 5000 (750 * 2 ^ (attempts - 1))

/-- Lifecycle status of a queued edit. -/
inductive SyncStatus where
  | queued
  | syncing
  | synced
  | error
deriving DecidableEq

/-- A queued offline edit (type `QueuedEdit` in the offline-queue section of
`authContext.tsx`): target, method, status, attempt count and last error.
The wall-clock timestamps (`createdAt`, `updatedAt`) play no role in any
claim and are omitted. -/
structure QueuedEdit where
  id : String
  url : String
  method : String
  status : SyncStatus
  attempts : Nat
  lastError : Option String
deriving DecidableEq

/-- First half of `syncItem`: `updateItem(item.id, { status: 'syncing' })`. -/
def markSyncing (e : QueuedEdit) : QueuedEdit :=
  { e with status := SyncStatus.syncing }

/-- Embedding of `syncItem` (`authContext.tsx` offline-queue section, lines
285-312): mark the entry `syncing`, attempt delivery (the network outcome is
the oracle `ok`, the error message `msg`); on success mark `synced`; on
failure increment the attempt count, record the message and mark `error`. -/
def syncItem (ok : Bool) (msg : String) (e : QueuedEdit) : QueuedEdit :=
  let s := markSyncing e
  if ok then
    { s with status := SyncStatus.synced }
  else
    { s with status := SyncStatus.error
             attempts := e.attempts + 1
             lastError := some msg }

/-- The backoff sleep performed by `syncItem` after a failed attempt:
`backoffDelay(item.attempts + 1)`; no sleep on success. -/
def syncDelay (ok : Bool) (e : QueuedEdit) : Nat :=
  if ok then 0 else backoffDelay (e.attempts + 1)

/-- Embedding of the loop body of `processQueue` (`authContext.tsx`
offline-queue section, lines 270-283), iterating from position `i`:
a `synced` entry is skipped (`continue`); otherwise, if the offline
condition holds at that moment (`isSimulatedOffline()`, modelled by the
oracle `offline` indexed by queue position, since the wall clock advances
monotonically through the pass), the pass breaks, leaving the entry and the
whole remaining suffix untouched; otherwise the entry is attempted via
`syncItem`. `deliver`/`msg` are the per-position network oracles. -/
def processQueueFrom (offline deliver : Nat → Bool) (msg : Nat → String) :
    Nat → List QueuedEdit → List QueuedEdit
  | _, [] => []
  | i, e :: rest =>
    if e.status = SyncStatus.synced then
      e :: processQueueFrom offline deliver msg (i + 1) rest
    else if offline i then
      e :: rest
    else
      syncItem (deliver i) (msg i) e :: processQueueFrom offline deliver msg (i + 1) rest

/-- One full processing pass of `processQueue` over the in-memory queue
(the `isProcessing` busy flag makes a pass mutually exclusive with itself,
so a single sequential pass is the faithful model). -/
def processQueue (offline deliver : Nat → Bool) (msg : Nat → String)
    (q : List QueuedEdit) : List QueuedEdit :=
  processQueueFrom offline deliver msg 0 q

/-- The three resolution actions offered by the conflict modal. -/
inductive Resolution where
  | keepMine
  | acceptRemote
  | mergeManual
deriving DecidableEq

/-- A network operation issued by the client during conflict resolution. -/
inductive NetOp where
  | get (id : String)
  | put (id : String) (body : UpdateBody)
deriving DecidableEq

/-- The ProductForm always submits the full product as JSON
(`JSON.stringify(productData)`), so every body field is present. -/
def toBody (p : Product) : UpdateBody :=
  { name := some p.name
    sku := some p.sku
    category := some p.category
    quantity := some p.quantity
    unit_price := some p.unit_price
    version := some p.version }

/-- Payload built by the `keep-mine` branch of `handleConflictResolution`
(`src/unnamed/part_003` lines 371-376, 411): `productData = { ...clientData }`
and `newVersion = conflictData.actual_version! + 1`, then
`productData.version = newVersion`. -/
def keepMinePayload (clientData : Product) (actualVersion : Int) : Product :=
  { clientData with version := actualVersion + 1 }

/-- Payload built by the `merge-manual` branch
(`src/unnamed/part_003` lines 403-407, 411): the merged fields with
`version = conflictData.actual_version! + 1`. -/
def mergeManualPayload (mergedData : Product) (actualVersion : Int) : Product :=
  { mergedData with version := actualVersion + 1 }

/-- The sequence of network operations issued by `handleConflictResolution`
(`src/unnamed/part_003` lines 369-411) for a version conflict:
`keep-mine` and `merge-manual` issue exactly one PUT via `submitProduct`;
`accept-remote` issues exactly one GET of the current record and returns
before any write. -/
def conflictResolutionOps (res : Resolution) (productId : String)
    (clientData mergedData : Product) (actualVersion : Int) : List NetOp :=
  match res with
  | .keepMine => [NetOp.put productId (toBody (keepMinePayload clientData actualVersion))]
  | .acceptRemote => [NetOp.get productId]
  | .mergeManual => [NetOp.put productId (toBody (mergeManualPayload mergedData actualVersion))]

/-- Effect of one client network operation on the stored row: the GET
handler (`getProductById`) only selects, so the store is unchanged; a PUT
runs `updateProduct`. -/
def serverStep (role : Role) (store : Option Product) (op : NetOp) : Option Product :=
  match op with
  | .get _ => store
  | .put id body => (updateProduct role id body store).snd

/-- Folding a sequence of client operations over the stored row. -/
def runOps (role : Role) (store : Option Product) (ops : List NetOp) : Option Product :=
  ops.foldl (serverStep role) store

/-- The editing baseline held by the ProductForm, plus the modal flag. -/
structure FormState where
  name : String
  sku : String
  category : String
  quantity : Int
  unit_price : Int
  version : Int
  modalOpen : Bool
deriving DecidableEq

/-- Client-state effect of the `accept-remote` branch
(`src/unnamed/part_003` lines 377-402): when the GET succeeds the form
fields (including `version`) are overwritten with the fetched record; the
modal is closed and the conflict descriptor cleared in every case. -/
def acceptRemoteClient (st : FormState) (fetched : Option Product) : FormState :=
  match fetched with
  | some cur =>
    { name := cur.name
      sku := cur.sku
      category := cur.category
      quantity := cur.quantity
      unit_price := cur.unit_price
      version := cur.version
      modalOpen := false }
  | none => { st with modalOpen := false }

/-- Sample stored row used by the witness theorems. -/
def curW : Product :=
  { name := "Coca Cola 500ml"
    sku := "COKE-500"
    category := "Beverages"
    quantity := 50
    unit_price := 250
    version := 3 }

/-- Sample client payload captured at version 1 (a name edit, all other
fields as stored), used for the conflict-resolution theorems. -/
def clientW : Product :=
  { curW with name := "Coca Cola Zero", version := 1 }

/-- Sample stale request body (version 1 against stored version 3) with a
changed price, used by the witness theorems. -/
def bodyStaleW : UpdateBody :=
  { name := some "Coca Cola 1L"
    sku := none
    category := none
    quantity := some 40
    unit_price := some 300
    version := some 1 }

/-- Sample matching request body (version 3, price equal to the stored
price), used by the witness theorems. -/
def bodyOkW : UpdateBody :=
  { name := some "Coca Cola 1L"
    sku := none
    category := none
    quantity := some 40
    unit_price := some 250
    version := some 3 }

/-- Sample queued edit in `queued` state, used by the witness theorems. -/
def editW : QueuedEdit :=
  { id := "e1"
    url := "/api/products/1"
    method := "PUT"
    status := SyncStatus.queued
    attempts := 0
    lastError := none }

/-- Iterating several processing passes (each pass driven by its own
offline/delivery/message oracles), as the periodic background tick does. -/
def runPasses (envs : List ((Nat → Bool) × (Nat → Bool) × (Nat → String)))
    (q : List QueuedEdit) : List QueuedEdit :=
  envs.foldl (fun acc env => processQueue env.1 env.2.1 env.2.2 acc) q

/-- Sample already-synced queued edit, used by the witness theorems. -/
def qSyncedW : QueuedEdit :=
  { editW with id := "s1", status := SyncStatus.synced }

/-- Sample three-entry queue [A, B, C], all still queued. -/
def qW : List QueuedEdit :=
  [editW, { editW with id := "e2" }, { editW with id := "e3" }]

/-- Oracle: never offline. -/
def qoffW : Nat → Bool := fun _ => false

/-- Oracle: offline exactly when the second entry (position 1) is reached. -/
def qoff2W : Nat → Bool := fun j => j == 1

/-- Oracle: delivery fails for the first entry and succeeds afterwards. -/
def qdelW : Nat → Bool := fun j => j != 0

/-- Oracle: error message recorded on failure. -/
def qmsgW : Nat → String := fun _ => "network error"

/-- Branch lemma: missing record. -/
theorem aux_update_none (role : Role) (id : String) (body : UpdateBody) :
    updateProduct role id body none = (UpdateOutcome.notFound "product" id, none) := rfl

/-- Branch lemma: the staff price-change guard fires. -/
theorem aux_update_perm (role : Role) (id : String) (body : UpdateBody) (cur : Product)
    (h : role = Role.staff ∧ body.unit_price.isSome ∧ body.unit_price ≠ some cur.unit_price) :
    updateProduct role id body (some cur)
      = (UpdateOutcome.permissionEditPrice "product" id "unit_price", some cur) := by
  simp only [updateProduct]
  rw [if_pos h]

/-- Branch lemma: version mismatch after the guard. -/
theorem aux_update_conflict (role : Role) (id : String) (body : UpdateBody) (cur : Product)
    (h1 : ¬(role = Role.staff ∧ body.unit_price.isSome ∧ body.unit_price ≠ some cur.unit_price))
    (h2 : body.version ≠ some cur.version) :
    updateProduct role id body (some cur)
      = (UpdateOutcome.conflict "product" id body.version cur.version, some cur) := by
  simp only [updateProduct]
  rw [if_neg h1, if_pos h2]

/-- Branch lemma: the write path. -/
theorem aux_update_success (role : Role) (id : String) (body : UpdateBody) (cur : Product)
    (h1 : ¬(role = Role.staff ∧ body.unit_price.isSome ∧ body.unit_price ≠ some cur.unit_price))
    (h2 : body.version = some cur.version) :
    updateProduct role id body (some cur)
      = (UpdateOutcome.success (applyUpdate role body cur), some (applyUpdate role body cur)) := by
  simp only [updateProduct]
  rw [if_neg h1, if_neg (fun hc => hc h2)]

/-- Success inversion: an accepted write exists only for a present record,
with the guard passed, the versions matching, and the applied record written
back. -/
theorem aux_update_success_inv (role : Role) (id : String) (body : UpdateBody)
    (stored : Option Product) (r : Product)
    (h : (updateProduct role id body stored).fst = UpdateOutcome.success r) :
    ∃ cur : Product, stored = some cur
      ∧ ¬(role = Role.staff ∧ body.unit_price.isSome ∧ body.unit_price ≠ some cur.unit_price)
      ∧ body.version = some cur.version
      ∧ r = applyUpdate role body cur
      ∧ (updateProduct role id body stored).snd = some r := by
  cases stored with
  | none =>
    rw [aux_update_none] at h
    exact absurd h (by simp)
  | some cur =>
    by_cases hperm : role = Role.staff ∧ body.unit_price.isSome ∧ body.unit_price ≠ some cur.unit_price
    · rw [aux_update_perm role id body cur hperm] at h
      exact absurd h (by simp)
    · by_cases hver : body.version = some cur.version
      · rw [aux_update_success role id body cur hperm hver] at h
        have h2 : UpdateOutcome.success (applyUpdate role body cur)
            = UpdateOutcome.success r := h
        have h3 : r = applyUpdate role body cur := by
          cases h2
          rfl
        refine ⟨cur, rfl, hperm, hver, h3, ?_⟩
        rw [aux_update_success role id body cur hperm hver, h3]
      · rw [aux_update_conflict role id body cur hperm hver] at h
        exact absurd h (by simp)

/-- C1: for every update request the outcome is decided in precedence order:
a missing record gives 404 NOT_FOUND; otherwise a restricted (staff) actor
submitting a unit_price different from the stored one gives 403
PERMISSION_EDIT_PRICE, with no condition on the submitted version (so it
fires even when the version is also stale); otherwise a submitted version
different from the stored one gives 409 CONFLICT; otherwise the write is
applied, the version incremented, and success returned. -/
theorem updateProduct_precedence (role : Role) (id : String) (body : UpdateBody)
    (cur : Product) :
    ((updateProduct role id body none).fst = UpdateOutcome.notFound "product" id
      ∧ httpStatus (updateProduct role id body none).fst = 404)
    ∧ (∀ p : Int, role = Role.staff → body.unit_price = some p → p ≠ cur.unit_price →
        (updateProduct role id body (some cur)).fst
            = UpdateOutcome.permissionEditPrice "product" id "unit_price"
          ∧ httpStatus (updateProduct role id body (some cur)).fst = 403)
    ∧ (¬(role = Role.staff ∧ body.unit_price.isSome ∧ body.unit_price ≠ some cur.unit_price) →
        body.version ≠ some cur.version →
        (updateProduct role id body (some cur)).fst
            = UpdateOutcome.conflict "product" id body.version cur.version
          ∧ httpStatus (updateProduct role id body (some cur)).fst = 409)
    ∧ (¬(role = Role.staff ∧ body.unit_price.isSome ∧ body.unit_price ≠ some cur.unit_price) →
        body.version = some cur.version →
        (updateProduct role id body (some cur)).fst
            = UpdateOutcome.success (applyUpdate role body cur)
          ∧ (updateProduct role id body (some cur)).snd = some (applyUpdate role body cur)
          ∧ (applyUpdate role body cur).version = cur.version + 1
          ∧ httpStatus (updateProduct role id body (some cur)).fst = 200) := by
  refine ⟨⟨rfl, rfl⟩, ?_, ?_, ?_⟩
  · intro p hrole hp hne
    have hcond : role = Role.staff ∧ body.unit_price.isSome
        ∧ body.unit_price ≠ some cur.unit_price := by
      refine ⟨hrole, by simp [hp], ?_⟩
      rw [hp]
      simpa using hne
    rw [aux_update_perm role id body cur hcond]
    exact ⟨rfl, rfl⟩
  · intro h1 h2
    rw [aux_update_conflict role id body cur h1 h2]
    exact ⟨rfl, rfl⟩
  · intro h1 h2
    rw [aux_update_success role id body cur h1 h2]
    exact ⟨rfl, rfl, rfl, rfl⟩

/-- Witness for the precedence theorem: at the stored sample row (version 3,
price 250), a staff request with changed price and stale version is refused
with PERMISSION_EDIT_PRICE, and an owner request with matching version and
no permission violation is applied with the version incremented to 4. -/
theorem updateProduct_precedence_witness :
    (updateProduct Role.staff "1" bodyStaleW (some curW)).fst
        = UpdateOutcome.permissionEditPrice "product" "1" "unit_price"
    ∧ (updateProduct Role.owner "1" bodyOkW (some curW)).fst
        = UpdateOutcome.success (applyUpdate Role.owner bodyOkW curW)
    ∧ (applyUpdate Role.owner bodyOkW curW).version = 4 := by
  refine ⟨?_, ?_, ?_⟩
  · exact ((updateProduct_precedence Role.staff "1" bodyStaleW curW).2.1
      300 rfl rfl (by decide)).1
  · exact ((updateProduct_precedence Role.owner "1" bodyOkW curW).2.2.2
      (by decide) (by decide)).1
  · have h := ((updateProduct_precedence Role.owner "1" bodyOkW curW).2.2.2
      (by decide) (by decide)).2.2.1
    simpa using h

/-- C2: every record is created with version 1 (the insert omits `version`
and the schema default is 1), and every accepted update writes back exactly
the previous stored version plus one — in particular the version strictly
increases and is never left unchanged or decreased. -/
theorem version_starts_at_one_and_increments :
    (∀ (name sku category : String) (quantity unit_price : Int),
      (createProduct name sku category quantity unit_price).version = 1)
    ∧ (∀ (role : Role) (id : String) (body : UpdateBody) (stored : Option Product)
        (r : Product),
        (updateProduct role id body stored).fst = UpdateOutcome.success r →
        ∃ cur : Product, stored = some cur
          ∧ r.version = cur.version + 1
          ∧ cur.version < r.version) := by
  refine ⟨fun _ _ _ _ _ => rfl, ?_⟩
  intro role id body stored r h
  obtain ⟨cur, hst, _, _, hr, _⟩ := aux_update_success_inv role id body stored r h
  refine ⟨cur, hst, ?_, ?_⟩
  · rw [hr]
    rfl
  · rw [hr]
    exact lt_add_one cur.version

/-- Witness for the version theorem: creation yields version 1, and the
accepted sample update moves the stored version from 3 to exactly 4. -/
theorem version_starts_at_one_and_increments_witness :
    (createProduct "White Bread" "BREAD-WHITE" "Bakery" 25 175).version = 1
    ∧ ∃ cur : Product, (some curW : Option Product) = some cur
        ∧ (applyUpdate Role.owner bodyOkW curW).version = cur.version + 1
        ∧ cur.version < (applyUpdate Role.owner bodyOkW curW).version := by
  refine ⟨version_starts_at_one_and_increments.1 _ _ _ _ _, ?_⟩
  exact version_starts_at_one_and_increments.2 Role.owner "1" bodyOkW (some curW)
    (applyUpdate Role.owner bodyOkW curW) (by decide)

/-- C3: the update returns CONFLICT carrying (expected_version = the
client-submitted version, actual_version = the stored version) exactly when
the record exists, the staff price guard does not fire, and the submitted
version differs from the stored one; and on every non-success outcome
(NOT_FOUND, PERMISSION_EDIT_PRICE or CONFLICT) no write is issued: the
stored row, including its version, is unchanged. -/
theorem conflict_iff_and_no_write_on_error
    (role : Role) (id : String) (body : UpdateBody) (stored : Option Product)
    (exp : Option Int) (act : Int) :
    ((updateProduct role id body stored).fst = UpdateOutcome.conflict "product" id exp act ↔
      ∃ cur : Product, stored = some cur
        ∧ ¬(role = Role.staff ∧ body.unit_price.isSome ∧ body.unit_price ≠ some cur.unit_price)
        ∧ body.version ≠ some cur.version
        ∧ exp = body.version ∧ act = cur.version)
    ∧ ((∀ r : Product, (updateProduct role id body stored).fst ≠ UpdateOutcome.success r) →
        (updateProduct role id body stored).snd = stored) := by
  constructor
  · constructor
    · intro h
      cases stored with
      | none =>
        rw [aux_update_none] at h
        exact absurd h (by simp)
      | some cur =>
        by_cases hperm : role = Role.staff ∧ body.unit_price.isSome
            ∧ body.unit_price ≠ some cur.unit_price
        · rw [aux_update_perm role id body cur hperm] at h
          exact absurd h (by simp)
        · by_cases hver : body.version = some cur.version
          · rw [aux_update_success role id body cur hperm hver] at h
            exact absurd h (by simp)
          · rw [aux_update_conflict role id body cur hperm hver] at h
            have h2 : UpdateOutcome.conflict "product" id body.version cur.version
                = UpdateOutcome.conflict "product" id exp act := h
            injection h2 with _ _ h3 h4
            exact ⟨cur, rfl, hperm, hver, h3.symm, h4.symm⟩
    · rintro ⟨cur, rfl, hperm, hver, rfl, rfl⟩
      rw [aux_update_conflict role id body cur hperm hver]
  · intro hns
    cases stored with
    | none => rw [aux_update_none]
    | some cur =>
      by_cases hperm : role = Role.staff ∧ body.unit_price.isSome
          ∧ body.unit_price ≠ some cur.unit_price
      · rw [aux_update_perm role id body cur hperm]
      · by_cases hver : body.version = some cur.version
        · exfalso
          apply hns (applyUpdate role body cur)
          rw [aux_update_success role id body cur hperm hver]
        · rw [aux_update_conflict role id body cur hperm hver]

/-- Witness for the conflict theorem: the stale owner request on the sample
row yields CONFLICT with expected_version 1 (the submitted value) and
actual_version 3 (the stored value), and leaves the stored row unchanged. -/
theorem conflict_iff_and_no_write_on_error_witness :
    (updateProduct Role.owner "1" bodyStaleW (some curW)).fst
        = UpdateOutcome.conflict "product" "1" (some 1) 3
    ∧ (updateProduct Role.owner "1" bodyStaleW (some curW)).snd = some curW := by
  constructor
  · exact (conflict_iff_and_no_write_on_error Role.owner "1" bodyStaleW (some curW)
      (some 1) 3).1.mpr ⟨curW, rfl, by decide, by decide, by decide, by decide⟩
  · refine (conflict_iff_and_no_write_on_error Role.owner "1" bodyStaleW (some curW)
      (some 1) 3).2 ?_
    intro r h
    have hc : (updateProduct Role.owner "1" bodyStaleW (some curW)).fst
        = UpdateOutcome.conflict "product" "1" (some 1) 3 := by decide
    rw [hc] at h
    exact UpdateOutcome.noConfusion h

/-- C5: an accepted update by a staff actor never changes the stored
unit_price — the row written back carries exactly the previous stored
price — and a staff request submitting a unit_price equal to the stored
value (possibly alongside changes to other fields) is never refused with
PERMISSION_EDIT_PRICE. -/
theorem staff_update_preserves_price
    (id : String) (body : UpdateBody) (cur : Product) (r : Product) :
    ((updateProduct Role.staff id body (some cur)).fst = UpdateOutcome.success r →
      r.unit_price = cur.unit_price
        ∧ (updateProduct Role.staff id body (some cur)).snd = some r)
    ∧ (body.unit_price = some cur.unit_price →
        ∀ res pid f, (updateProduct Role.staff id body (some cur)).fst
          ≠ UpdateOutcome.permissionEditPrice res pid f) := by
  constructor
  · intro h
    obtain ⟨cur2, hst, _, _, hr, hsnd⟩ :=
      aux_update_success_inv Role.staff id body (some cur) r h
    have hcc : cur2 = cur := by
      injection hst.symm
    subst hcc
    refine ⟨?_, hsnd⟩
    rw [hr]
    rfl
  · intro hp res pid f
    have hperm : ¬(Role.staff = Role.staff ∧ body.unit_price.isSome
        ∧ body.unit_price ≠ some cur.unit_price) := by
      rintro ⟨-, -, hne⟩
      exact hne hp
    by_cases hver : body.version = some cur.version
    · rw [aux_update_success Role.staff id body cur hperm hver]
      simp
    · rw [aux_update_conflict Role.staff id body cur hperm hver]
      simp

/-- Witness for the staff frame theorem: the staff sample request keeping
the stored price 250 is accepted, the written row still has price 250, and
the outcome is not PERMISSION_EDIT_PRICE. -/
theorem staff_update_preserves_price_witness :
    ((applyUpdate Role.staff bodyOkW curW).unit_price = curW.unit_price
      ∧ (updateProduct Role.staff "1" bodyOkW (some curW)).snd
          = some (applyUpdate Role.staff bodyOkW curW))
    ∧ (updateProduct Role.staff "1" bodyOkW (some curW)).fst
        ≠ UpdateOutcome.permissionEditPrice "product" "1" "unit_price" := by
  constructor
  · exact (staff_update_preserves_price "1" bodyOkW curW
      (applyUpdate Role.staff bodyOkW curW)).1 (by decide)
  · exact (staff_update_preserves_price "1" bodyOkW curW
      (applyUpdate Role.staff bodyOkW curW)).2 (by decide) "product" "1" "unit_price"

/-- C10: for every update request — same stored row, actor role and body —
the two update-handler variants produce identical results: the same
classification with the same details payload, the same written row, and the
same HTTP status. -/
theorem update_handlers_equivalent (role : Role) (id : String) (body : UpdateBody)
    (stored : Option Product) :
    updateProductAlt role id body stored = updateProduct role id body stored
    ∧ httpStatus (updateProductAlt role id body stored).fst
        = httpStatus (updateProduct role id body stored).fst :=
  ⟨rfl, rfl⟩

/-- C4, evaluated against the code: at the spec's own scenario — record
stored at version 3, conflict descriptor carrying actual_version 3 — the
keep-mine branch of `handleConflictResolution` resubmits the client payload
with version set to `actual_version + 1 = 4` rather than `actual_version =
3`; the server compares 4 with the stored version 3 and answers 409 CONFLICT
(expected 4, actual 3) instead of the claimed 200; the resubmission the
claim prescribes (version 3) would indeed be accepted with the stored
version becoming 4. -/
theorem keepMine_resubmission_conflicts :
    keepMinePayload clientW 3 = { clientW with version := 4 }
    ∧ (updateProduct Role.owner "1" (toBody (keepMinePayload clientW 3)) (some curW)).fst
        = UpdateOutcome.conflict "product" "1" (some 4) 3
    ∧ (updateProduct Role.owner "1" (toBody { clientW with version := 3 }) (some curW)).fst
        = UpdateOutcome.success { clientW with version := 4 } := by
  decide

/-- C7: the retry delay applied after the n-th consecutive failure of an
entry (whose attempt count is then n) equals min(5000, 750 * 2^(n-1)); the
delay doubles per attempt until the cap, is monotone in the attempt count,
and never exceeds the 5000 ms ceiling. -/
theorem backoff_formula_monotone_capped (n a b : Nat) (e : QueuedEdit)
    (hn : 1 ≤ n) (hab : a ≤ b) (he : e.attempts = n - 1) :
    syncDelay false e = min 5000 (750 * 2 ^ (n - 1))
    ∧ backoffDelay n = min 5000 (750 * 2 ^ (n - 1))
    ∧ backoffDelay (n + 1) = min 5000 (2 * backoffDelay n)
    ∧ backoffDelay a ≤ backoffDelay b
    ∧ backoffDelay n ≤ 5000 := by
  refine ⟨?_, rfl, ?_, ?_, ?_⟩
  · have h1 : e.attempts + 1 = n := by omega
    simp [syncDelay, h1, backoffDelay]
  · have hx : 2 ^ n = 2 * 2 ^ (n - 1) := by
      conv_lhs => rw [show n = n - 1 + 1 from by omega]
      rw [pow_succ]
      ring
    simp only [backoffDelay, Nat.add_sub_cancel]
    rw [hx]
    generalize (2 : Nat) ^ (n - 1) = y
    omega
  · simp only [backoffDelay]
    refine min_le_min le_rfl (Nat.mul_le_mul le_rfl ?_)
    exact Nat.pow_le_pow_right (by norm_num) (by omega)
  · exact min_le_left _ _

/-- Witness for the backoff theorem: after the third consecutive failure
(attempt count 2 beforehand) the sleep is min(5000, 750 * 4) = 3000 ms, the
delay is monotone from attempt 2 to attempt 5, and attempt 3 stays below the
ceiling. -/
theorem backoff_formula_monotone_capped_witness :
    syncDelay false { editW with attempts := 2 } = min 5000 (750 * 2 ^ (3 - 1))
    ∧ backoffDelay 2 ≤ backoffDelay 5
    ∧ backoffDelay 3 ≤ 5000 := by
  obtain ⟨h1, -, -, h4, h5⟩ := backoff_formula_monotone_capped 3 2 5
    { editW with attempts := 2 } (by decide) (by decide) rfl
  exact ⟨h1, h4, h5⟩

/-- C8: resolving a version conflict with accept-remote issues exactly one
network operation — a GET of the current record — and no PUT; replaying the
issued operations against the server store leaves it unchanged for every
role and store contents; on the client the fetched record becomes the new
editing baseline (every form field including version) and the conflict
modal is closed. -/
theorem acceptRemote_read_only (productId : String) (clientData mergedData : Product)
    (actualVersion : Int) (role : Role) (store : Option Product)
    (st : FormState) (cur : Product) :
    conflictResolutionOps Resolution.acceptRemote productId clientData mergedData
        actualVersion = [NetOp.get productId]
    ∧ (∀ (pid : String) (b : UpdateBody),
        NetOp.put pid b ∉ conflictResolutionOps Resolution.acceptRemote productId
          clientData mergedData actualVersion)
    ∧ runOps role store (conflictResolutionOps Resolution.acceptRemote productId
        clientData mergedData actualVersion) = store
    ∧ acceptRemoteClient st (some cur) =
        { name := cur.name, sku := cur.sku, category := cur.category,
          quantity := cur.quantity, unit_price := cur.unit_price,
          version := cur.version, modalOpen := false }
    ∧ (acceptRemoteClient st none).modalOpen = false := by
  refine ⟨rfl, ?_, rfl, rfl, rfl⟩
  intro pid b h
  simp [conflictResolutionOps] at h

/-- The per-entry attempt never changes the entry id. -/
theorem aux_syncItem_id (ok : Bool) (msg : String) (e : QueuedEdit) :
    (syncItem ok msg e).id = e.id := by
  cases ok <;> rfl

/-- A processing pass keeps every edit (by id) at its original position. -/
theorem aux_process_map_id (offline deliver : Nat → Bool) (msg : Nat → String) :
    ∀ (i : Nat) (q : List QueuedEdit),
      (processQueueFrom offline deliver msg i q).map QueuedEdit.id
        = q.map QueuedEdit.id := by
  intro i q
  induction q generalizing i with
  | nil => rfl
  | cons e rest ih =>
    simp only [processQueueFrom]
    by_cases hs : e.status = SyncStatus.synced
    · rw [if_pos hs]
      simp [ih]
    · rw [if_neg hs]
      by_cases ho : offline i
      · rw [if_pos ho]
      · rw [if_neg ho]
        simp [ih, aux_syncItem_id]

/-- A processing pass never removes an entry. -/
theorem aux_process_length (offline deliver : Nat → Bool) (msg : Nat → String)
    (i : Nat) (q : List QueuedEdit) :
    (processQueueFrom offline deliver msg i q).length = q.length := by
  have h := aux_process_map_id offline deliver msg i q
  calc (processQueueFrom offline deliver msg i q).length
      = ((processQueueFrom offline deliver msg i q).map QueuedEdit.id).length :=
        (List.length_map _ _).symm
    _ = (q.map QueuedEdit.id).length := by rw [h]
    _ = q.length := List.length_map _ _

/-- When the offline condition never holds, every entry is handled at its
own position: a synced entry is skipped unchanged and every other entry is
attempted — independently of what happened to earlier entries. -/
theorem aux_process_online_getD (deliver : Nat → Bool) (msg : Nat → String)
    (offline : Nat → Bool) (hoff : ∀ j, offline j = false) :
    ∀ (i n : Nat) (q : List QueuedEdit) (e0 : QueuedEdit), n < q.length →
      (processQueueFrom offline deliver msg i q).getD n e0 =
        (if (q.getD n e0).status = SyncStatus.synced then q.getD n e0
         else syncItem (deliver (i + n)) (msg (i + n)) (q.getD n e0)) := by
  intro i n q
  induction q generalizing i n with
  | nil =>
    intro e0 h
    exact absurd h (by simp)
  | cons e rest ih =>
    intro e0 h
    simp only [processQueueFrom]
    by_cases hs : e.status = SyncStatus.synced
    · rw [if_pos hs]
      cases n with
      | zero =>
        simp [hs]
      | succ m =>
        have hm : m < rest.length := by simpa using h
        have := ih (i + 1) m e0 hm
        have harith : i + 1 + m = i + (m + 1) := by omega
        rw [harith] at this
        simpa using this
    · rw [if_neg hs, if_neg (by simp [hoff i])]
      cases n with
      | zero =>
        simp [hs]
      | succ m =>
        have hm : m < rest.length := by simpa using h
        have := ih (i + 1) m e0 hm
        have harith : i + 1 + m = i + (m + 1) := by omega
        rw [harith] at this
        simpa using this

/-- When the offline condition holds at the first non-synced entry reached,
the pass breaks there and the whole suffix from that entry on is exactly the
input suffix. -/
theorem aux_process_offline_drop (offline deliver : Nat → Bool) (msg : Nat → String) :
    ∀ (i n : Nat) (q : List QueuedEdit) (e0 : QueuedEdit),
      n < q.length →
      (q.getD n e0).status ≠ SyncStatus.synced →
      offline (i + n) = true →
      (∀ j, j < n → (q.getD j e0).status ≠ SyncStatus.synced → offline (i + j) = false) →
      (processQueueFrom offline deliver msg i q).drop n = q.drop n := by
  intro i n q
  induction q generalizing i n with
  | nil =>
    intro e0 h
    exact absurd h (by simp)
  | cons e rest ih =>
    intro e0 hlen hns hoffn hpre
    simp only [processQueueFrom]
    cases n with
    | zero =>
      have hse : e.status ≠ SyncStatus.synced := by simpa using hns
      rw [if_neg hse, if_pos (by simpa using hoffn)]
    | succ m =>
      have hm : m < rest.length := by simpa using hlen
      have hns2 : (rest.getD m e0).status ≠ SyncStatus.synced := by simpa using hns
      have hoffn2 : offline (i + 1 + m) = true := by
        have harith : i + 1 + m = i + (m + 1) := by omega
        rw [harith]
        exact hoffn
      have hpre2 : ∀ j, j < m → (rest.getD j e0).status ≠ SyncStatus.synced →
          offline (i + 1 + j) = false := by
        intro j hj hjs
        have harith : i + 1 + j = i + (j + 1) := by omega
        rw [harith]
        exact hpre (j + 1) (by omega) (by simpa using hjs)
      by_cases hs : e.status = SyncStatus.synced
      · rw [if_pos hs]
        simp only [List.drop_succ_cons]
        exact ih (i + 1) m e0 hm hns2 hoffn2 hpre2
      · have h0 : offline i = false := by
          have := hpre 0 (Nat.succ_pos m) (by simpa using hs)
          simpa using this
        rw [if_neg hs, if_neg (by simp [h0])]
        simp only [List.drop_succ_cons]
        exact ih (i + 1) m e0 hm hns2 hoffn2 hpre2

/-- A synced entry is left untouched by a pass, wherever it sits and
whatever the oracles do. -/
theorem aux_process_synced_getD (offline deliver : Nat → Bool) (msg : Nat → String) :
    ∀ (i n : Nat) (q : List QueuedEdit) (e0 : QueuedEdit),
      (q.getD n e0).status = SyncStatus.synced →
      (processQueueFrom offline deliver msg i q).getD n e0 = q.getD n e0 := by
  intro i n q
  induction q generalizing i n with
  | nil =>
    intro e0 _
    rfl
  | cons e rest ih =>
    intro e0 h
    simp only [processQueueFrom]
    by_cases hs : e.status = SyncStatus.synced
    · rw [if_pos hs]
      cases n with
      | zero => rfl
      | succ m => simpa using ih (i + 1) m e0 (by simpa using h)
    · rw [if_neg hs]
      by_cases ho : offline i
      · rw [if_pos ho]
      · rw [if_neg ho]
        cases n with
        | zero => exact absurd (by simpa using h) hs
        | succ m => simpa using ih (i + 1) m e0 (by simpa using h)

/-- A synced entry is left untouched by every subsequent pass. -/
theorem aux_runPasses_synced :
    ∀ (envs : List ((Nat → Bool) × (Nat → Bool) × (Nat → String)))
      (q : List QueuedEdit) (n : Nat) (e0 : QueuedEdit),
      (q.getD n e0).status = SyncStatus.synced →
      (runPasses envs q).getD n e0 = q.getD n e0 := by
  intro envs
  induction envs with
  | nil =>
    intro q n e0 _
    rfl
  | cons env rest ih =>
    intro q n e0 h
    have h1 := aux_process_synced_getD env.1 env.2.1 env.2.2 0 n q e0 h
    have h2 : ((processQueue env.1 env.2.1 env.2.2 q).getD n e0).status
        = SyncStatus.synced := by
      rw [show (processQueue env.1 env.2.1 env.2.2 q).getD n e0 = q.getD n e0 from h1]
      exact h
    calc (runPasses (env :: rest) q).getD n e0
        = (runPasses rest (processQueue env.1 env.2.1 env.2.2 q)).getD n e0 := rfl
      _ = (processQueue env.1 env.2.1 env.2.2 q).getD n e0 := ih _ n e0 h2
      _ = q.getD n e0 := h1

/-- C6: within a single processing pass the queue keeps its FIFO order (the
processed queue lists the same edits, by id, at the same positions); when
the offline condition never holds during the pass, every non-synced entry
is attempted at its own position regardless of earlier entries failing (no
head-of-line blocking); and when the offline condition holds at the first
non-synced entry reached, the pass stops early and that entry together with
the whole remaining suffix is left untouched, in order. -/
theorem processQueue_fifo_noblock_stop_early
    (offline deliver : Nat → Bool) (msg : Nat → String) (q : List QueuedEdit)
    (n : Nat) (e0 : QueuedEdit) :
    ((processQueue offline deliver msg q).map QueuedEdit.id = q.map QueuedEdit.id)
    ∧ ((∀ j, offline j = false) → n < q.length →
        (processQueue offline deliver msg q).getD n e0 =
          (if (q.getD n e0).status = SyncStatus.synced then q.getD n e0
           else syncItem (deliver n) (msg n) (q.getD n e0)))
    ∧ (n < q.length → (q.getD n e0).status ≠ SyncStatus.synced → offline n = true →
        (∀ j, j < n → (q.getD j e0).status ≠ SyncStatus.synced → offline j = false) →
        (processQueue offline deliver msg q).drop n = q.drop n) := by
  refine ⟨aux_process_map_id offline deliver msg 0 q, ?_, ?_⟩
  · intro hoff hn
    have h := aux_process_online_getD deliver msg offline hoff 0 n q e0 hn
    simpa using h
  · intro hn hns hoffn hpre
    refine aux_process_offline_drop offline deliver msg 0 n q e0 hn hns ?_ ?_
    · simpa using hoffn
    · intro j hj hjs
      simpa using hpre j hj hjs

/-- Witness for the queue-ordering theorem on the concrete queue [A, B, C]
(all queued): with delivery failing for A and succeeding afterwards and the
system never offline, the ids stay in order and B is still attempted
(becoming synced) even though A failed; and with the offline condition
arising exactly when B is reached, the suffix [B, C] is left untouched. -/
theorem processQueue_fifo_noblock_stop_early_witness :
    ((processQueue qoffW qdelW qmsgW qW).map QueuedEdit.id = qW.map QueuedEdit.id)
    ∧ (processQueue qoffW qdelW qmsgW qW).getD 1 editW
        = (if (qW.getD 1 editW).status = SyncStatus.synced then qW.getD 1 editW
           else syncItem (qdelW 1) (qmsgW 1) (qW.getD 1 editW))
    ∧ (processQueue qoff2W qdelW qmsgW qW).drop 1 = qW.drop 1 := by
  refine ⟨(processQueue_fifo_noblock_stop_early qoffW qdelW qmsgW qW 1 editW).1,
    (processQueue_fifo_noblock_stop_early qoffW qdelW qmsgW qW 1 editW).2.1
      (fun _ => rfl) (by decide), ?_⟩
  refine (processQueue_fifo_noblock_stop_early qoff2W qdelW qmsgW qW 1 editW).2.2
    (by decide) (by decide) (by decide) ?_
  intro j hj _
  have hj0 : j = 0 := by omega
  rw [hj0]
  rfl

/-- C9: the attempt of an entry first marks it syncing and then resolves to
exactly synced or error (so statuses move only along
queued/error → syncing → synced or error, error entries re-entering syncing
on a retry); a synced entry is skipped untouched by the pass and by every
subsequent pass and is never removed (the pass preserves the queue length);
and in an online pass every non-synced entry — queued and error alike — is
re-attempted. -/
theorem queue_status_machine
    (offline deliver : Nat → Bool) (msg : Nat → String) (q : List QueuedEdit)
    (n : Nat) (e0 e : QueuedEdit) (ok : Bool) (m : String)
    (envs : List ((Nat → Bool) × (Nat → Bool) × (Nat → String))) :
    ((markSyncing e).status = SyncStatus.syncing
      ∧ syncItem ok m e =
          (if ok then { markSyncing e with status := SyncStatus.synced }
           else { markSyncing e with
                    status := SyncStatus.error
                    attempts := e.attempts + 1
                    lastError := some m })
      ∧ ((syncItem ok m e).status = SyncStatus.synced
          ∨ (syncItem ok m e).status = SyncStatus.error))
    ∧ (processQueue offline deliver msg q).length = q.length
    ∧ ((q.getD n e0).status = SyncStatus.synced →
        (processQueue offline deliver msg q).getD n e0 = q.getD n e0
          ∧ (runPasses envs q).getD n e0 = q.getD n e0)
    ∧ ((∀ j, offline j = false) → n < q.length →
        (q.getD n e0).status ≠ SyncStatus.synced →
        (processQueue offline deliver msg q).getD n e0
          = syncItem (deliver n) (msg n) (q.getD n e0)) := by
  refine ⟨⟨rfl, ?_, ?_⟩, aux_process_length offline deliver msg 0 q, ?_, ?_⟩
  · cases ok <;> rfl
  · cases ok
    · right
      rfl
    · left
      rfl
  · intro h
    exact ⟨aux_process_synced_getD offline deliver msg 0 n q e0 h,
      aux_runPasses_synced envs q n e0 h⟩
  · intro hoff hn hns
    have h := aux_process_online_getD deliver msg offline hoff 0 n q e0 hn
    rw [if_neg hns] at h
    simpa using h

/-- Witness for the status-machine theorem: on the concrete queue
[synced entry, queued entry] processed online, the synced head is returned
untouched (also across an extra later pass), the queue keeps its length,
and the queued second entry is attempted. -/
theorem queue_status_machine_witness :
    (processQueue qoffW qdelW qmsgW [qSyncedW, editW]).length = 2
    ∧ (processQueue qoffW qdelW qmsgW [qSyncedW, editW]).getD 0 editW = qSyncedW
    ∧ (runPasses [(qoffW, qdelW, qmsgW)] [qSyncedW, editW]).getD 0 editW = qSyncedW
    ∧ (processQueue qoffW qdelW qmsgW [qSyncedW, editW]).getD 1 editW
        = syncItem (qdelW 1) (qmsgW 1) editW := by
  obtain ⟨-, hlen, hsync, -⟩ := queue_status_machine qoffW qdelW qmsgW
    [qSyncedW, editW] 0 editW editW true "m" [(qoffW, qdelW, qmsgW)]
  obtain ⟨h1, h2⟩ := hsync rfl
  refine ⟨hlen, h1, h2, ?_⟩
  obtain ⟨-, -, -, hatt⟩ := queue_status_machine qoffW qdelW qmsgW
    [qSyncedW, editW] 1 editW editW true "m" []
  exact hatt (fun _ => rfl) (by decide) (by decide)
